import Mathlib

/-!
Verification of the BiFPN module (`efficientdet/bifpn.py`).

The development shallowly embeds the module over exact rational arithmetic:
a feature map is a 4-axis array (batch, height, width, channels) represented
by its shape together with a total data function; the third-party tensor
primitives the module calls (bilinear image resize, 1x1 convolutions, batch
normalization, relu) are modelled as rational-valued functions with the same
shape behaviour; Python exceptions (index errors, tuple-unpacking errors,
constructor `TypeError`s) become `Except` values; the in-place update that
`FastFusion.call` performs on its argument list is made explicit by returning
the final state of the list alongside the output.
-/

namespace EffDet

/-- The stabilizing constant `EPSILON = 1e-5` from the top of `bifpn.py`. -/
def EPSILON : ℚ := 1 / 100000

/-- Scalar relu, used elementwise by the `Activation('relu')` layer. -/
def reluQ (x : ℚ) : ℚ := max x 0

/-- A feature map: a 4-axis numeric array with axes (batch, height, width,
channels), modelled as its shape plus a total data function over indices. -/
structure FeatureMap where
  batch : ℕ
  height : ℕ
  width : ℕ
  channels : ℕ
  data : ℕ → ℕ → ℕ → ℕ → ℚ

/-- A static tensor shape, as produced by `tensor.shape` on a 4-axis tensor. -/
structure Shape where
  batch : ℕ
  height : ℕ
  width : ℕ
  channels : ℕ

/-- The `.shape` attribute of a feature map. -/
def FeatureMap.shape (x : FeatureMap) : Shape :=
  ⟨x.batch, x.height, x.width, x.channels⟩

/-- An all-zero 1x1x1x1 map, used as the (unreachable, guarded) default of
list lookups that model Python list indexing. -/
def zeroFM : FeatureMap :=
  ⟨1, 1, 1, 1, fun _ _ _ _ => 0⟩

/-- Elementwise relu on a feature map (the `Activation('relu')` layer). -/
def reluFM (x : FeatureMap) : FeatureMap :=
  { x with data := fun b i j c => reluQ (x.data b i j c) }

/-- Elementwise division of a feature map by a scalar (`tensor / s`). -/
def FeatureMap.divScalar (x : FeatureMap) (s : ℚ) : FeatureMap :=
  { x with data := fun b i j c => x.data b i j c / s }

/-! ### Third-party tensor primitives

These model the tensor-library layers the module instantiates.  Their data
semantics is rational-valued; their shape semantics matches the library's.
-/

/-- Clamp an integer sampling index into `[0, n-1]` (edge-pixel clamping of
the bilinear resize kernel). -/
def clampIdx (n : ℕ) (z : ℤ) : ℕ := min (n - 1) z.toNat

/-- Source coordinate of destination pixel `j` when resampling an axis of
length `inDim` to length `outDim` (half-pixel centers, the default of the
library's image resize). -/
def srcCoord (inDim outDim : ℕ) (j : ℕ) : ℚ :=
  ((j : ℚ) + 1 / 2) * ((inDim : ℚ) / (outDim : ℚ)) - 1 / 2

/-- Linear interpolation of the sampled axis `f` (of length `n`) at the
rational source coordinate `s`, clamping both neighbours to the valid range. -/
def interp1 (n : ℕ) (f : ℕ → ℚ) (s : ℚ) : ℚ :=
  let i0 : ℤ := Int.floor s
  let t : ℚ := s - (i0 : ℚ)
  (1 - t) * f (clampIdx n i0) + t * f (clampIdx n (i0 + 1))

/-- Models `tf.image.resize(images, (h, w))` with the default bilinear method:
the output has exactly the requested spatial size, the batch and channel axes
are preserved, and the data is bilinearly interpolated with half-pixel
sampling and edge clamping. -/
def imageResize (x : FeatureMap) (h w : ℕ) : FeatureMap :=
  { batch := x.batch, height := h, width := w, channels := x.channels,
    data := fun b i j c =>
      interp1 x.height
        (fun ii => interp1 x.width (fun jj => x.data b ii jj c) (srcCoord x.width w j))
        (srcCoord x.height h i) }

/-- A plain 1x1 convolution (`Conv2D(filters, kernel_size=1)`, stride 1):
an affine map across the channel axis, preserving batch/height/width. -/
structure Conv1x1 where
  filters : ℕ
  kernel : ℕ → ℕ → ℚ
  bias : ℕ → ℚ

def Conv1x1.apply (k : Conv1x1) (x : FeatureMap) : FeatureMap :=
  { batch := x.batch, height := x.height, width := x.width, channels := k.filters,
    data := fun b i j f =>
      k.bias f + ∑ c in Finset.range x.channels, k.kernel c f * x.data b i j c }

/-- A depthwise-separable 1x1 convolution (`SeparableConv2D(filters,
kernel_size=1)`): a per-channel depthwise scaling followed by a pointwise
channel mix and a bias, preserving batch/height/width. -/
structure SepConv1x1 where
  filters : ℕ
  depthwise : ℕ → ℚ
  pointwise : ℕ → ℕ → ℚ
  bias : ℕ → ℚ

def SepConv1x1.apply (k : SepConv1x1) (x : FeatureMap) : FeatureMap :=
  { batch := x.batch, height := x.height, width := x.width, channels := k.filters,
    data := fun b i j f =>
      k.bias f + ∑ c in Finset.range x.channels,
        k.pointwise c f * (k.depthwise c * x.data b i j c) }

/-- The pixel-wise projection layer of `Resize`: a plain or a
depthwise-separable 1x1 convolution, chosen by the `separable` flag. -/
inductive PixelConv where
  | plain : Conv1x1 → PixelConv
  | sep : SepConv1x1 → PixelConv

def PixelConv.filters : PixelConv → ℕ
  | .plain k => k.filters
  | .sep k => k.filters

def PixelConv.apply : PixelConv → FeatureMap → FeatureMap
  | .plain k, x => k.apply x
  | .sep k, x => k.apply x

/-- `BatchNormalization` in its inference form: a per-channel affine map.
The learned gamma/beta and the moving statistics are folded into the
per-channel `scale` and `offset` (the square root of the variance term is
absorbed into `scale`, keeping the model rational). -/
structure BatchNorm where
  scale : ℕ → ℚ
  offset : ℕ → ℚ

def BatchNorm.apply (p : BatchNorm) (x : FeatureMap) : FeatureMap :=
  { x with data := fun b i j c => p.scale c * x.data b i j c + p.offset c }

/-! ### Constructor-call model

`Resize.__init__` calls the convolution constructor as
`conv_cls(features, kernel=1)`.  The following models the keyword-argument
resolution the third-party constructor performs on such a call.
-/

/-- Parameter names of the third-party 2-D convolution constructors
(`Conv2D` / `SeparableConv2D`), in signature order.  The remaining optional
keyword parameters (weight initialization, regularization, constraints and
the generic layer options) are omitted here; none of them is named `kernel`.
Only `filters` and `kernel_size` have no default value. -/
def convParamNames : List String :=
  ["filters", "kernel_size", "strides", "padding",
   "data_format", "dilation_rate", "activation", "use_bias"]

/-- The convolution-constructor parameters that have no default value. -/
def convRequiredNames : List String := ["filters", "kernel_size"]

/-- Models Python keyword-argument resolution for a call to the convolution
constructor with `npos` positional arguments and the named keyword arguments
`kwargs`: a keyword that is not a parameter name, or a required parameter
that is covered neither positionally nor by keyword, raises a `TypeError`. -/
def convCtorCheck (npos : ℕ) (kwargs : List String) : Except String Unit :=
  if kwargs.any (fun k => !(convParamNames.contains k)) then
    .error "TypeError: unexpected keyword argument"
  else if convRequiredNames.any
      (fun r => !(decide (convParamNames.indexOf r < npos) || kwargs.contains r)) then
    .error "TypeError: missing required positional argument"
  else .ok ()

/-! ### Resize -/

/-- The `Resize` module: holds the pixel-wise 1x1 projection layer built in
its initializer (`self.pixel_wise`), whose `filters` field is the configured
`features` value. -/
structure Resize where
  pixel_wise : PixelConv

/-- Learned parameters a successfully built `Resize` would hold (weights of
the plain conv, and of the separable conv, one of which is used depending on
the `separable` flag). -/
structure ResizeParams where
  kernel : ℕ → ℕ → ℚ
  bias : ℕ → ℚ
  depthwise : ℕ → ℚ
  pointwise : ℕ → ℕ → ℚ

/-- `Resize.__init__(features, separable)`: chooses the convolution class by
`separable`, then calls it as `conv_cls(features, kernel=1)` — one positional
argument and the keyword `kernel`.  (The initializer also never calls the
base-class initializer, but the constructor call raises first.) -/
def Resize.init (features : ℕ) (separable : Bool) (p : ResizeParams) :
    Except String Resize := do
  convCtorCheck 1 ["kernel"]
  .ok ⟨if separable then .sep ⟨features, p.depthwise, p.pointwise, p.bias⟩
       else .plain ⟨features, p.kernel, p.bias⟩⟩

/-- `Resize.call(images, target_dim)`: `dims = target_dim[1:3]` selects the
(height, width) of the reference shape, `tf.image.resize` resamples to that
size (bilinear by default), and `self.pixel_wise` projects the channels. -/
def Resize.call (r : Resize) (images : FeatureMap) (targetDim : Shape) : FeatureMap :=
  r.pixel_wise.apply (imageResize images targetDim.height targetDim.width)

/-! ### FastFusion -/

/-- The `FastFusion` module state: the input count `size`, the learned weight
vector `w` (entries at indices below `size`), the separable 1x1 convolution,
the batch-normalization layer, and the owned `Resize` sub-module. -/
structure FastFusion where
  size : ℕ
  w : ℕ → ℚ
  conv : SepConv1x1
  bn : BatchNorm
  resize : Resize

/-- The normalization denominator of `FastFusion.call`:
`w_sum = EPSILON + tf.reduce_sum(relu(self.w))`. -/
def FastFusion.wSum (ff : FastFusion) : ℚ :=
  EPSILON + ∑ i in Finset.range ff.size, reluQ (ff.w i)

/-- Line 38 of `bifpn.py`:
`inputs[-1] = self.resize(inputs[-1], inputs[0].shape)` — the state of the
caller's list after the in-place update of its last element.  Both the
resized element and the reference shape are read from the list before the
assignment takes effect. -/
def FastFusion.alignLast (ff : FastFusion) (inputs : List FeatureMap) :
    List FeatureMap :=
  inputs.set (inputs.length - 1)
    (ff.resize.call (inputs.getLastD zeroFM) (inputs.headD zeroFM).shape)

/-- The elementwise combination `sum over t below n of wf t * al[t]`, carried
on the first entry's shape (the common shape of the maps stacked by `map_fn`
and collapsed by `reduce_sum`). -/
def weightedBy (wf : ℕ → ℚ) (n : ℕ) (al : List FeatureMap) : FeatureMap :=
  { batch := (al.getD 0 zeroFM).batch
    height := (al.getD 0 zeroFM).height
    width := (al.getD 0 zeroFM).width
    channels := (al.getD 0 zeroFM).channels
    data := fun b i j c =>
      ∑ t in Finset.range n, wf t * (al.getD t zeroFM).data b i j c }

/-- Lines 41-54 of `bifpn.py` on the already-aligned list: activate the
weights, stack the weighted inputs over indices `0 .. size-1` and sum them
(`map_fn`, `transpose`, `reduce_sum`), divide by `w_sum`, then apply the
separable convolution, batch normalization and relu. -/
def FastFusion.fuse (ff : FastFusion) (aligned : List FeatureMap) : FeatureMap :=
  reluFM (ff.bn.apply (ff.conv.apply
    ((weightedBy (fun t => reluQ (ff.w t)) ff.size aligned).divScalar ff.wSum)))

/-- `FastFusion.call(inputs)`: indexing `inputs[-1]` (and `inputs[0]`) on an
empty list raises, the last element of the caller's list is replaced in place
by its resized value, and the weighted sum indexes the list at `0 .. size-1`
(raising when `size` exceeds the list length).  The result is the fused
output together with the final state of the caller's list. -/
def FastFusion.call (ff : FastFusion) (inputs : List FeatureMap) :
    Except String (FeatureMap × List FeatureMap) :=
  if inputs.length = 0 then
    .error "IndexError: list index out of range"
  else
    let aligned := ff.alignLast inputs
    if ff.size ≤ aligned.length then
      .ok (ff.fuse aligned, aligned)
    else
      .error "IndexError: list index out of range"

/-- Learned parameters of one `FastFusion` unit (the random weight
initialization and the parameters of its layers). -/
structure FFParams where
  wInit : ℕ → ℚ
  depthwise : ℕ → ℚ
  pointwise : ℕ → ℕ → ℚ
  convBias : ℕ → ℚ
  bn : BatchNorm
  resizeP : ResizeParams

/-- `FastFusion.__init__(size, features)`: creates the weight variable, the
separable convolution (`SeparableConv2D(features, kernel_size=1)`, a valid
constructor call), the batch-normalization and relu layers, and finally the
`Resize(features)` sub-module (whose construction raises). -/
def FastFusion.init (size features : ℕ) (p : FFParams) : Except String FastFusion := do
  convCtorCheck 1 ["kernel_size"]
  let r ← Resize.init features false p.resizeP
  .ok { size := size, w := p.wInit,
        conv := ⟨features, p.depthwise, p.pointwise, p.convBias⟩,
        bn := p.bn, resize := r }

/-! ### BiFPNBlock -/

/-- The `BiFPNBlock` module: its 8 `FastFusion` sub-modules, named by pyramid
level and direction, in the order the initializer creates them. -/
structure BiFPNBlock where
  ff_6_td : FastFusion
  ff_5_td : FastFusion
  ff_4_td : FastFusion
  ff_7_out : FastFusion
  ff_6_out : FastFusion
  ff_5_out : FastFusion
  ff_4_out : FastFusion
  ff_3_out : FastFusion

/-- `BiFPNBlock._resize(im, dims)`: bilinear resize of `im` to the (height,
width) of `dims` (defined in the source but unused by `call`). -/
def BiFPNBlock.resizeFn (im : FeatureMap) (dims : Shape) : FeatureMap :=
  imageResize im dims.height dims.width

/-- `BiFPNBlock.call(inputs)`: unpacks exactly 5 feature maps (any other
length raises), computes the three intermediate top-down fusions, then the
five output fusions, and returns the output pyramid in order. -/
def BiFPNBlock.call (blk : BiFPNBlock) (inputs : List FeatureMap) :
    Except String (List FeatureMap) :=
  match inputs with
  | [P3, P4, P5, P6, P7] => do
    let r6 ← blk.ff_6_td.call [P6, P7]
    let P6_td := r6.1
    let r5 ← blk.ff_5_td.call [P5, P6_td]
    let P5_td := r5.1
    let r4 ← blk.ff_4_td.call [P4, P5_td]
    let P4_td := r4.1
    let o3 ← blk.ff_3_out.call [P3, P4_td]
    let P3_out := o3.1
    let o4 ← blk.ff_4_out.call [P4, P4_td, P3_out]
    let P4_out := o4.1
    let o5 ← blk.ff_5_out.call [P5, P5_td, P4_out]
    let P5_out := o5.1
    let o6 ← blk.ff_6_out.call [P6, P6_td, P5_out]
    let P6_out := o6.1
    let o7 ← blk.ff_7_out.call [P7, P6_td]
    let P7_out := o7.1
    .ok [P3_out, P4_out, P5_out, P6_out, P7_out]
  | _ => .error "ValueError: expected 5 feature maps"

/-- Learned parameters of one block's 8 fusion units. -/
structure BlockParams where
  p6td : FFParams
  p5td : FFParams
  p4td : FFParams
  p7out : FFParams
  p6out : FFParams
  p5out : FFParams
  p4out : FFParams
  p3out : FFParams

/-- `BiFPNBlock.__init__(features)`: builds the 8 fusion units with sizes
2, 2, 2 (top-down) and 2, 3, 3, 3, 2 (output), in source order. -/
def BiFPNBlock.init (features : ℕ) (p : BlockParams) : Except String BiFPNBlock := do
  let f6td ← FastFusion.init 2 features p.p6td
  let f5td ← FastFusion.init 2 features p.p5td
  let f4td ← FastFusion.init 2 features p.p4td
  let f7o ← FastFusion.init 2 features p.p7out
  let f6o ← FastFusion.init 3 features p.p6out
  let f5o ← FastFusion.init 3 features p.p5out
  let f4o ← FastFusion.init 3 features p.p4out
  let f3o ← FastFusion.init 2 features p.p3out
  .ok ⟨f6td, f5td, f4td, f7o, f6o, f5o, f4o, f3o⟩

/-! ### BiFPN -/

/-- The `BiFPN` module: the ordered list of its blocks. -/
structure BiFPN where
  blocks : List BiFPNBlock

/-- The `for block in self.blocks: x = block(x)` loop of `BiFPN.call`,
with an exception from any block propagating to the caller. -/
def runBlocks : List BiFPNBlock → List FeatureMap → Except String (List FeatureMap)
  | [], x => .ok x
  | b :: bs, x =>
    match b.call x with
    | .ok y => runBlocks bs y
    | .error e => .error e

/-- `BiFPN.call(inputs)`: feeds the pyramid through the blocks in order and
returns the last block's output. -/
def BiFPN.call (m : BiFPN) (inputs : List FeatureMap) :
    Except String (List FeatureMap) :=
  runBlocks m.blocks inputs

/-- `BiFPN.__init__(features, n_blocks)`: builds `n_blocks` blocks
(`[BiFPNBlock(features) for i in range(n_blocks)]`). -/
def BiFPN.init (features nBlocks : ℕ) (p : ℕ → BlockParams) : Except String BiFPN := do
  let bs ← (List.range nBlocks).mapM (fun i => BiFPNBlock.init features (p i))
  .ok ⟨bs⟩

/-! ### Spec-side definitions

The following definitions transcribe the specification's wording (sections
4.2 and 4.3 of the spec), to be compared against the source translation
above.
-/

/-- The FastFusion output as the spec words it: the last input is resized
(via Resize) to the first input's spatial dimensions, each activated weight
is normalized by the sum of all activated weights plus the stabilizing
constant, the weighted sum of the aligned inputs is taken, and then the
pointwise separable convolution, the batch normalization and the
non-negative clamping activation are applied, in that order. -/
def FastFusion.specOutput (ff : FastFusion) (inputs : List FeatureMap) : FeatureMap :=
  let aligned := inputs.set (inputs.length - 1)
    (ff.resize.call (inputs.getLastD zeroFM) (inputs.headD zeroFM).shape)
  reluFM (ff.bn.apply (ff.conv.apply
    (weightedBy
      (fun t => reluQ (ff.w t) / (EPSILON + ∑ u in Finset.range ff.size, reluQ (ff.w u)))
      ff.size aligned)))

/-- One BiFPNBlock pass as section 4.3 of the spec orders it: the top-down
stage `P6_td, P5_td, P4_td` (P3 and P7 have no intermediate state), then the
bottom-up stage `P3_out .. P7_out`, each fusion performed by the block's
correspondingly named unit, returning the ordered output pyramid. -/
def BiFPNBlock.specFlow (blk : BiFPNBlock) (P3 P4 P5 P6 P7 : FeatureMap) :
    List FeatureMap :=
  let P6td := blk.ff_6_td.specOutput [P6, P7]
  let P5td := blk.ff_5_td.specOutput [P5, P6td]
  let P4td := blk.ff_4_td.specOutput [P4, P5td]
  let P3o := blk.ff_3_out.specOutput [P3, P4td]
  let P4o := blk.ff_4_out.specOutput [P4, P4td, P3o]
  let P5o := blk.ff_5_out.specOutput [P5, P5td, P4o]
  let P6o := blk.ff_6_out.specOutput [P6, P6td, P5o]
  let P7o := blk.ff_7_out.specOutput [P7, P6td]
  [P3o, P4o, P5o, P6o, P7o]

/-! ### Concrete instances (for closed evaluations) -/

/-- A concrete all-zero feature map of the given dimensions. -/
def fmOf (b h w c : ℕ) : FeatureMap := ⟨b, h, w, c, fun _ _ _ _ => 0⟩

/-- A concrete separable 1x1 convolution with unit weights. -/
def trivSep : SepConv1x1 := ⟨1, fun _ => 1, fun _ _ => 1, fun _ => 0⟩

/-- A concrete identity-like batch-normalization state. -/
def trivBN : BatchNorm := ⟨fun _ => 1, fun _ => 0⟩

/-- A concrete `Resize` state projecting to 1 channel. -/
def trivResize : Resize := ⟨.plain ⟨1, fun _ _ => 1, fun _ => 0⟩⟩

/-- A concrete `FastFusion` state of the given size with unit weights. -/
def trivFF (n : ℕ) : FastFusion := ⟨n, fun _ => 1, trivSep, trivBN, trivResize⟩

/-- A concrete block whose units have the sizes `BiFPNBlock.__init__` uses. -/
def trivBlock : BiFPNBlock :=
  ⟨trivFF 2, trivFF 2, trivFF 2, trivFF 2, trivFF 3, trivFF 3, trivFF 3, trivFF 2⟩

/-- Concrete learned parameters for a fusion unit. -/
def trivFFParams : FFParams :=
  ⟨fun _ => 1, fun _ => 1, fun _ _ => 1, fun _ => 0, trivBN,
   ⟨fun _ _ => 1, fun _ => 0, fun _ => 1, fun _ _ => 1⟩⟩

/-- Concrete learned parameters for a block. -/
def trivBlockParams : BlockParams :=
  ⟨trivFFParams, trivFFParams, trivFFParams, trivFFParams,
   trivFFParams, trivFFParams, trivFFParams, trivFFParams⟩

/-! ### Helper lemmas -/

theorem except_bind_ok {ε α β : Type} (a : α) (f : α → Except ε β) :
    (Except.ok a >>= f : Except ε β) = f a := rfl

theorem getD_set_of_ne {α : Type} (a d : α) (xs : List α) {i n : ℕ} (h : i ≠ n) :
    (xs.set n a).getD i d = xs.getD i d := by
  rw [List.getD_eq_getD_get?, List.getD_eq_getD_get?, List.get?_set_ne a xs (Ne.symm h)]

theorem getD_set_self {α : Type} (a d : α) (xs : List α) {n : ℕ} (h : n < xs.length) :
    (xs.set n a).getD n d = a := by
  rw [List.getD_eq_getD_get?, List.get?_set_eq_of_lt a h]
  rfl

theorem getD_take_of_lt {α : Type} (d : α) (xs : List α) {i n : ℕ} (h : i < n) :
    (xs.take n).getD i d = xs.getD i d := by
  rw [List.getD_eq_getD_get?, List.getD_eq_getD_get?, List.get?_take h]

theorem length_alignLast (ff : FastFusion) (xs : List FeatureMap) :
    (ff.alignLast xs).length = xs.length := by
  simp [FastFusion.alignLast]

/-- Normalizing after the sum (the source's `weighted_sum / w_sum`) agrees
with normalizing each weight before the sum (the spec's wording). -/
theorem weightedBy_div (wf : ℕ → ℚ) (n : ℕ) (al : List FeatureMap) (s : ℚ) :
    (weightedBy wf n al).divScalar s = weightedBy (fun t => wf t / s) n al := by
  unfold weightedBy FeatureMap.divScalar
  congr 1
  funext b i j c
  rw [Finset.sum_div]
  exact Finset.sum_congr rfl fun t _ => by ring

/-- The source fusion body applied to the aligned list equals the spec-side
output; the two differ only in where the normalization division sits. -/
theorem fuse_eq_specOutput (ff : FastFusion) (xs : List FeatureMap) :
    ff.fuse (ff.alignLast xs) = ff.specOutput xs := by
  simp only [FastFusion.fuse, FastFusion.specOutput, FastFusion.alignLast,
    weightedBy_div, FastFusion.wSum]

/-- Behaviour of `FastFusion.call` whenever the weight count is positive and
does not exceed the input count: it succeeds, returns the spec-side output,
and leaves the caller's list in its aligned state. -/
theorem call_eq_ok (ff : FastFusion) (xs : List FeatureMap)
    (hpos : 0 < ff.size) (hle : ff.size ≤ xs.length) :
    ff.call xs = .ok (ff.specOutput xs, ff.alignLast xs) := by
  have hne : ¬(xs.length = 0) := by omega
  simp only [FastFusion.call, if_neg hne, length_alignLast, if_pos hle,
    fuse_eq_specOutput]

/-- The weighted combination reads only the list entries at indices below
`n`. -/
theorem weightedBy_congr (wf : ℕ → ℚ) (n : ℕ) (hpos : 0 < n)
    {as bs : List FeatureMap}
    (h : ∀ t, t < n → as.getD t zeroFM = bs.getD t zeroFM) :
    weightedBy wf n as = weightedBy wf n bs := by
  unfold weightedBy
  rw [h 0 hpos]
  congr 1
  funext b i j c
  exact Finset.sum_congr rfl fun t ht => by
    rw [h t (Finset.mem_range.mp ht)]

/-- The fusion output reads only the list entries at indices below `size`. -/
theorem fuse_congr (ff : FastFusion) (hpos : 0 < ff.size)
    {as bs : List FeatureMap}
    (h : ∀ t, t < ff.size → as.getD t zeroFM = bs.getD t zeroFM) :
    ff.fuse as = ff.fuse bs := by
  simp only [FastFusion.fuse]
  rw [weightedBy_congr (fun t => reluQ (ff.w t)) ff.size hpos h]

/-- `call_eq_ok` specialized to two-input calls of a size-2 unit. -/
theorem call2_eq (ff : FastFusion) (hs : ff.size = 2) (A B : FeatureMap) :
    ff.call [A, B] = .ok (ff.specOutput [A, B], ff.alignLast [A, B]) :=
  call_eq_ok ff [A, B] (by omega) (by simp [hs])

/-- `call_eq_ok` specialized to three-input calls of a size-3 unit. -/
theorem call3_eq (ff : FastFusion) (hs : ff.size = 3) (A B C : FeatureMap) :
    ff.call [A, B, C] = .ok (ff.specOutput [A, B, C], ff.alignLast [A, B, C]) :=
  call_eq_ok ff [A, B, C] (by omega) (by simp [hs])

/-- With the unit sizes `BiFPNBlock.__init__` assigns (2 for two-input
fusions, 3 for three-input fusions), one block pass succeeds and equals the
spec-side dataflow. -/
theorem block_call_eq_specFlow (blk : BiFPNBlock) (P3 P4 P5 P6 P7 : FeatureMap)
    (h1 : blk.ff_6_td.size = 2) (h2 : blk.ff_5_td.size = 2)
    (h3 : blk.ff_4_td.size = 2) (h4 : blk.ff_3_out.size = 2)
    (h5 : blk.ff_4_out.size = 3) (h6 : blk.ff_5_out.size = 3)
    (h7 : blk.ff_6_out.size = 3) (h8 : blk.ff_7_out.size = 2) :
    blk.call [P3, P4, P5, P6, P7] = .ok (blk.specFlow P3 P4 P5 P6 P7) := by
  simp only [BiFPNBlock.call, BiFPNBlock.specFlow,
    call2_eq blk.ff_6_td h1, call2_eq blk.ff_5_td h2, call2_eq blk.ff_4_td h3,
    call2_eq blk.ff_3_out h4, call3_eq blk.ff_4_out h5, call3_eq blk.ff_5_out h6,
    call3_eq blk.ff_6_out h7, call2_eq blk.ff_7_out h8, except_bind_ok]

/-- The pixel-wise projection preserves the height axis. -/
theorem pixelConv_apply_height (pc : PixelConv) (x : FeatureMap) :
    (pc.apply x).height = x.height := by cases pc <;> rfl

/-- The pixel-wise projection preserves the width axis. -/
theorem pixelConv_apply_width (pc : PixelConv) (x : FeatureMap) :
    (pc.apply x).width = x.width := by cases pc <;> rfl

/-- The pixel-wise projection outputs its configured filter count. -/
theorem pixelConv_apply_channels (pc : PixelConv) (x : FeatureMap) :
    (pc.apply x).channels = pc.filters := by cases pc <;> rfl

/-- Running the concatenation of two block lists is running them in
sequence. -/
theorem runBlocks_append (as bs : List BiFPNBlock) (xs : List FeatureMap) :
    runBlocks (as ++ bs) xs = runBlocks as xs >>= runBlocks bs := by
  induction as generalizing xs with
  | nil => rfl
  | cons a as ih =>
    simp only [List.cons_append, runBlocks]
    cases hc : a.call xs with
    | ok y => simp only [hc]; exact ih y
    | error e => simp only [hc]; rfl

/-- The convolution-constructor call made by `Resize.__init__` raises. -/
theorem convCtorCheck_kernel :
    convCtorCheck 1 ["kernel"] = .error "TypeError: unexpected keyword argument" := rfl

/-- `Resize.__init__` always raises, for every configuration. -/
theorem resize_init_fails (features : ℕ) (separable : Bool) (p : ResizeParams) :
    Resize.init features separable p =
      .error "TypeError: unexpected keyword argument" := rfl

/-- `FastFusion.__init__` always raises (via its `Resize` sub-module). -/
theorem fastFusion_init_fails (size features : ℕ) (p : FFParams) :
    FastFusion.init size features p =
      .error "TypeError: unexpected keyword argument" := rfl

/-- `BiFPNBlock.__init__` always raises (via its first fusion unit). -/
theorem block_init_fails (features : ℕ) (p : BlockParams) :
    BiFPNBlock.init features p =
      .error "TypeError: unexpected keyword argument" := rfl

/-! ### Claims -/

/-- Claim C1: for every 5-level input pyramid, with the block's fusion units
sized as `BiFPNBlock.__init__` builds them (2 for the two-input fusions, 3
for the three-input fusions), `BiFPNBlock.call` computes exactly the spec's
ordered dataflow `BiFPNBlock.specFlow` — the top-down stage `P6_td, P5_td,
P4_td` (P3 and P7 having no intermediate state) followed by the bottom-up
stage — each fusion performed by the block's correspondingly named unit, and
returns the ordered output pyramid `[P3_out, P4_out, P5_out, P6_out,
P7_out]`. -/
theorem C1_block_dataflow (blk : BiFPNBlock) (P3 P4 P5 P6 P7 : FeatureMap)
    (h1 : blk.ff_6_td.size = 2) (h2 : blk.ff_5_td.size = 2)
    (h3 : blk.ff_4_td.size = 2) (h4 : blk.ff_3_out.size = 2)
    (h5 : blk.ff_4_out.size = 3) (h6 : blk.ff_5_out.size = 3)
    (h7 : blk.ff_6_out.size = 3) (h8 : blk.ff_7_out.size = 2) :
    blk.call [P3, P4, P5, P6, P7] = .ok (blk.specFlow P3 P4 P5 P6 P7) :=
  block_call_eq_specFlow blk P3 P4 P5 P6 P7 h1 h2 h3 h4 h5 h6 h7 h8

/-- Witness for C1 at a concrete block and pyramid. -/
theorem C1_block_dataflow_witness :
    trivBlock.ff_6_td.size = 2 ∧ trivBlock.ff_5_td.size = 2 ∧
    trivBlock.ff_4_td.size = 2 ∧ trivBlock.ff_3_out.size = 2 ∧
    trivBlock.ff_4_out.size = 3 ∧ trivBlock.ff_5_out.size = 3 ∧
    trivBlock.ff_6_out.size = 3 ∧ trivBlock.ff_7_out.size = 2 ∧
    trivBlock.call
        [fmOf 1 32 32 1, fmOf 1 16 16 1, fmOf 1 8 8 1, fmOf 1 4 4 1, fmOf 1 2 2 1] =
      .ok (trivBlock.specFlow (fmOf 1 32 32 1) (fmOf 1 16 16 1) (fmOf 1 8 8 1)
        (fmOf 1 4 4 1) (fmOf 1 2 2 1)) :=
  ⟨rfl, rfl, rfl, rfl, rfl, rfl, rfl, rfl,
   C1_block_dataflow trivBlock _ _ _ _ _ rfl rfl rfl rfl rfl rfl rfl rfl⟩

/-- Claim C2: for every FastFusion instance with weight vector of (positive)
size N and every list of N input feature maps, the call succeeds and the
output equals `FastFusion.specOutput`, the spec formula
relu(bn(conv(sum_i (relu(w_i) / (1e-5 + sum_j relu(w_j))) * x_i))) with the
x_i the inputs after the last is resized to the first input's spatial
dimensions. -/
theorem C2_fastFusion_formula (ff : FastFusion) (xs : List FeatureMap)
    (hpos : 0 < ff.size) (hlen : xs.length = ff.size) :
    (ff.call xs).map Prod.fst = .ok (ff.specOutput xs) := by
  rw [call_eq_ok ff xs hpos (by omega)]
  rfl

/-- Witness for C2 at a concrete fusion unit and input pair. -/
theorem C2_fastFusion_formula_witness :
    0 < (trivFF 2).size ∧ [fmOf 1 2 2 1, fmOf 1 4 4 1].length = (trivFF 2).size ∧
    ((trivFF 2).call [fmOf 1 2 2 1, fmOf 1 4 4 1]).map Prod.fst =
      .ok ((trivFF 2).specOutput [fmOf 1 2 2 1, fmOf 1 4 4 1]) :=
  ⟨by decide, rfl, C2_fastFusion_formula _ _ (by decide) rfl⟩

/-- Claim C3: for every FastFusion weight vector (the all-zero and
all-negative configurations included), the normalization denominator
`FastFusion.wSum = EPSILON + sum of the ReLU-activated weights` is at least
`EPSILON = 1e-5`, hence positive and nonzero — the division is never a
division by zero. -/
theorem C3_wSum_lower_bound (ff : FastFusion) :
    EPSILON ≤ ff.wSum ∧ 0 < ff.wSum ∧ ff.wSum ≠ 0 := by
  have hsum : 0 ≤ ∑ i in Finset.range ff.size, reluQ (ff.w i) :=
    Finset.sum_nonneg fun i _ => le_max_right _ _
  have heps : (0 : ℚ) < EPSILON := by norm_num [EPSILON]
  have h1 : EPSILON ≤ ff.wSum := by
    simp only [FastFusion.wSum]
    linarith
  have h2 : 0 < ff.wSum := lt_of_lt_of_le heps h1
  exact ⟨h1, h2, ne_of_gt h2⟩

/-- Claim C4: with the unit sizes the block initializer assigns, the pyramid
returned by `BiFPNBlock.call` has exactly 5 feature maps and each output
level keeps the height and width of the corresponding input level. -/
theorem C4_block_shape_preservation (blk : BiFPNBlock) (P3 P4 P5 P6 P7 : FeatureMap)
    (h1 : blk.ff_6_td.size = 2) (h2 : blk.ff_5_td.size = 2)
    (h3 : blk.ff_4_td.size = 2) (h4 : blk.ff_3_out.size = 2)
    (h5 : blk.ff_4_out.size = 3) (h6 : blk.ff_5_out.size = 3)
    (h7 : blk.ff_6_out.size = 3) (h8 : blk.ff_7_out.size = 2) :
    ∃ o3 o4 o5 o6 o7 : FeatureMap,
      blk.call [P3, P4, P5, P6, P7] = .ok [o3, o4, o5, o6, o7] ∧
      o3.height = P3.height ∧ o3.width = P3.width ∧
      o4.height = P4.height ∧ o4.width = P4.width ∧
      o5.height = P5.height ∧ o5.width = P5.width ∧
      o6.height = P6.height ∧ o6.width = P6.width ∧
      o7.height = P7.height ∧ o7.width = P7.width := by
  refine ⟨_, _, _, _, _,
    block_call_eq_specFlow blk P3 P4 P5 P6 P7 h1 h2 h3 h4 h5 h6 h7 h8,
    rfl, rfl, rfl, rfl, rfl, rfl, rfl, rfl, rfl, rfl⟩

/-- Witness for C4 at a concrete block and pyramid. -/
theorem C4_block_shape_preservation_witness :
    trivBlock.ff_6_td.size = 2 ∧ trivBlock.ff_7_out.size = 2 ∧
    (∃ o3 o4 o5 o6 o7 : FeatureMap,
      trivBlock.call
          [fmOf 1 32 32 1, fmOf 1 16 16 1, fmOf 1 8 8 1, fmOf 1 4 4 1, fmOf 1 2 2 1] =
        .ok [o3, o4, o5, o6, o7] ∧
      o3.height = (fmOf 1 32 32 1).height ∧ o3.width = (fmOf 1 32 32 1).width ∧
      o4.height = (fmOf 1 16 16 1).height ∧ o4.width = (fmOf 1 16 16 1).width ∧
      o5.height = (fmOf 1 8 8 1).height ∧ o5.width = (fmOf 1 8 8 1).width ∧
      o6.height = (fmOf 1 4 4 1).height ∧ o6.width = (fmOf 1 4 4 1).width ∧
      o7.height = (fmOf 1 2 2 1).height ∧ o7.width = (fmOf 1 2 2 1).width) :=
  ⟨rfl, rfl,
   C4_block_shape_preservation trivBlock _ _ _ _ _ rfl rfl rfl rfl rfl rfl rfl rfl⟩

/-- Claim C5: for every input map and reference shape, `Resize.call` returns
a map with exactly the reference height and width and with channel count
equal to the configured filter count of its projection layer, and it is the
bilinear spatial resize followed by the pixel-wise 1x1 projection, in that
order. -/
theorem C5_resize_contract (r : Resize) (images : FeatureMap) (td : Shape) :
    (r.call images td).height = td.height ∧
    (r.call images td).width = td.width ∧
    (r.call images td).channels = r.pixel_wise.filters ∧
    r.call images td = r.pixel_wise.apply (imageResize images td.height td.width) :=
  ⟨by rw [Resize.call, pixelConv_apply_height]; rfl,
   by rw [Resize.call, pixelConv_apply_width]; rfl,
   by rw [Resize.call, pixelConv_apply_channels],
   rfl⟩

/-- Claim C6: `BiFPN.call` is exactly the sequential left-to-right
composition of its blocks: a single-block model followed by another
single-block model equals the two-block model with the same per-block
state, and in general running one model and feeding its output to a second
equals running the model with the concatenated block list — no branching, no
extra loops, no early termination. -/
theorem C6_bifpn_sequential :
    (∀ (b1 b2 : BiFPNBlock) (xs : List FeatureMap),
      (BiFPN.mk [b1]).call xs >>= (BiFPN.mk [b2]).call =
        (BiFPN.mk [b1, b2]).call xs) ∧
    (∀ (m1 m2 : BiFPN) (xs : List FeatureMap),
      m1.call xs >>= m2.call = (BiFPN.mk (m1.blocks ++ m2.blocks)).call xs) :=
  ⟨fun b1 b2 xs => (runBlocks_append [b1] [b2] xs).symm,
   fun m1 m2 xs => (runBlocks_append m1.blocks m2.blocks xs).symm⟩

/-- Counterexample to claim C7 as stated: calling a fusion unit on the list
`[mA, mB]` (heights 1 and 3) leaves the caller's list holding elements of
heights `[1, 1]` — the last element was replaced in place by its resized
value — whereas the list held heights `[1, 3]` before the call: the caller's
list is not unchanged. -/
theorem C7_call_mutates_list_cex :
    ((trivFF 2).call [fmOf 1 1 2 1, fmOf 1 3 2 1]).toOption.map
        (fun r => r.2.map FeatureMap.height) = some [1, 1] ∧
    [fmOf 1 1 2 1, fmOf 1 3 2 1].map FeatureMap.height = [1, 3] ∧
    (some [1, 1] : Option (List ℕ)) ≠ some [1, 3] :=
  ⟨rfl, rfl, by decide⟩

/-- Claim C7 amended: the forward computation mutates no feature map, but it
does mutate the caller's list: its last element is replaced by the Resize of
the original last element to the first input's spatial shape, while every
element before the last and the list length are unchanged. -/
theorem C7_call_list_effect (ff : FastFusion) (xs : List FeatureMap)
    (hpos : 0 < ff.size) (hle : ff.size ≤ xs.length) :
    ff.call xs = .ok (ff.specOutput xs,
      xs.set (xs.length - 1)
        (ff.resize.call (xs.getLastD zeroFM) (xs.headD zeroFM).shape)) ∧
    (ff.alignLast xs).length = xs.length ∧
    (∀ i, i + 1 < xs.length → (ff.alignLast xs).getD i zeroFM = xs.getD i zeroFM) ∧
    (ff.alignLast xs).getD (xs.length - 1) zeroFM =
      ff.resize.call (xs.getLastD zeroFM) (xs.headD zeroFM).shape := by
  refine ⟨call_eq_ok ff xs hpos hle, length_alignLast ff xs, ?_, ?_⟩
  · intro i hi
    exact getD_set_of_ne _ _ _ (by omega)
  · exact getD_set_self _ _ _ (by omega)

/-- Witness for the amended C7 at a concrete fusion unit and list. -/
theorem C7_call_list_effect_witness :
    0 < (trivFF 2).size ∧ (trivFF 2).size ≤ [fmOf 1 1 2 1, fmOf 1 3 2 1].length ∧
    ((trivFF 2).alignLast [fmOf 1 1 2 1, fmOf 1 3 2 1]).length =
      [fmOf 1 1 2 1, fmOf 1 3 2 1].length :=
  ⟨by decide, by decide,
   (C7_call_list_effect (trivFF 2) [fmOf 1 1 2 1, fmOf 1 3 2 1]
     (by decide) (by decide)).2.1⟩

/-- Counterexample to claim C8 as stated: a `BiFPN` constructed with
`n_blocks = 0` builds no block — hence no `Resize`, directly or
transitively — and its construction succeeds rather than failing. -/
theorem C8_bifpn_zero_blocks_constructs :
    BiFPN.init 64 0 (fun _ => trivBlockParams) = .ok ⟨[]⟩ := rfl

/-- Claim C8 amended: constructing a `Resize` always fails with an error
(its initializer passes the invalid keyword argument `kernel=1` to the
convolution constructor), so constructing any `FastFusion` or `BiFPNBlock`
also fails, and constructing a `BiFPN` fails whenever it builds at least one
block (`n_blocks ≥ 1`); with `n_blocks = 0` no `Resize` is constructed and
the `BiFPN` constructor succeeds. -/
theorem C8_constructors_fail :
    (∀ (features : ℕ) (separable : Bool) (p : ResizeParams),
      (Resize.init features separable p).isOk = false) ∧
    (∀ (size features : ℕ) (p : FFParams),
      (FastFusion.init size features p).isOk = false) ∧
    (∀ (features : ℕ) (p : BlockParams),
      (BiFPNBlock.init features p).isOk = false) ∧
    (∀ (features n : ℕ) (p : ℕ → BlockParams), 1 ≤ n →
      (BiFPN.init features n p).isOk = false) := by
  refine ⟨fun f s p => by rw [resize_init_fails]; rfl,
          fun sz f p => by rw [fastFusion_init_fails]; rfl,
          fun f p => by rw [block_init_fails]; rfl,
          fun f n p h => ?_⟩
  obtain ⟨m, rfl⟩ : ∃ m, n = m + 1 := ⟨n - 1, by omega⟩
  simp only [BiFPN.init, List.range_succ_eq_map]
  rfl

/-- Witness for the amended C8 at a concrete one-block configuration. -/
theorem C8_constructors_fail_witness :
    (1 : ℕ) ≤ 1 ∧ (BiFPN.init 64 1 (fun _ => trivBlockParams)).isOk = false :=
  ⟨le_refl 1, C8_constructors_fail.2.2.2 64 1 (fun _ => trivBlockParams) (le_refl 1)⟩

/-- Claim C9: when a (positively sized) fusion unit is called with more than
`size` inputs, no error is raised, and the returned output depends only on
the first `size` entries of the list: any two long-enough input lists that
agree on their first `size` entries yield the same output — entries at
positions `size` and beyond are silently ignored. -/
theorem C9_extra_inputs_ignored (ff : FastFusion) (xs : List FeatureMap)
    (hpos : 0 < ff.size) (hlt : ff.size < xs.length) :
    (ff.call xs).isOk = true ∧
    (∀ ys : List FeatureMap, ff.size < ys.length →
      ys.take ff.size = xs.take ff.size →
      (ff.call ys).map Prod.fst = (ff.call xs).map Prod.fst) := by
  constructor
  · rw [call_eq_ok ff xs hpos (le_of_lt hlt)]
    rfl
  · intro ys hy htake
    rw [call_eq_ok ff ys hpos (le_of_lt hy), call_eq_ok ff xs hpos (le_of_lt hlt)]
    have key : ∀ t, t < ff.size →
        (ff.alignLast ys).getD t zeroFM = (ff.alignLast xs).getD t zeroFM := by
      intro t ht
      have e1 : (ff.alignLast ys).getD t zeroFM = ys.getD t zeroFM :=
        getD_set_of_ne _ _ _ (by omega)
      have e2 : (ff.alignLast xs).getD t zeroFM = xs.getD t zeroFM :=
        getD_set_of_ne _ _ _ (by omega)
      have e3 : (ys.take ff.size).getD t zeroFM = (xs.take ff.size).getD t zeroFM := by
        rw [htake]
      rw [e1, e2, ← getD_take_of_lt zeroFM ys ht, ← getD_take_of_lt zeroFM xs ht, e3]
    have hspec : ff.specOutput ys = ff.specOutput xs := by
      rw [← fuse_eq_specOutput, ← fuse_eq_specOutput]
      exact fuse_congr ff hpos key
    rw [hspec]
    rfl

/-- Witness for C9 at a concrete fusion unit and oversized list. -/
theorem C9_extra_inputs_ignored_witness :
    0 < (trivFF 2).size ∧
    (trivFF 2).size < [fmOf 1 1 2 1, fmOf 1 1 2 1, fmOf 1 3 2 1].length ∧
    ((trivFF 2).call [fmOf 1 1 2 1, fmOf 1 1 2 1, fmOf 1 3 2 1]).isOk = true :=
  ⟨by decide, by decide,
   (C9_extra_inputs_ignored (trivFF 2) [fmOf 1 1 2 1, fmOf 1 1 2 1, fmOf 1 3 2 1]
     (by decide) (by decide)).1⟩

/-- Claim C10: a `BiFPN` constructed with `n_blocks = 0` constructs
successfully with an empty block list, and its forward pass over the empty
block list is the identity: the input pyramid is returned unchanged. -/
theorem C10_zero_blocks_identity (features : ℕ) (p : ℕ → BlockParams)
    (xs : List FeatureMap) :
    BiFPN.init features 0 p = .ok ⟨[]⟩ ∧ BiFPN.call ⟨[]⟩ xs = .ok xs :=
  ⟨rfl, rfl⟩

end EffDet
